import Mathlib

/-!
Verification of the agents-sdk turn-execution engine (Go) against its
natural-language specification, via a shallow embedding in Lean.

Embedding conventions, shared by every definition below:
* Go maps with string keys are modelled as association lists; opaque
  `interface` values (tool arguments, tool results, structured output,
  metadata values) are modelled as `String`.
* `time.Time` timestamps and `time.Duration` fields are omitted: they are
  wall-clock data that never influence control flow.
* Go `error` results become `Option String` (none = nil) or, for the run
  loop, the inductive `RunError` mirroring the wrapped-error chains that
  `fmt.Errorf` builds with the percent-w verb.
* The completion provider is external; it is modelled as a function of the
  invocation index (the number of completions already requested in this
  run) and of the arguments the runner passes (agent, message history).
* Context cancellation and timeouts (ctx.Err checks) are real-time
  behaviour and are not modelled; session persistence (AddItems) is an
  external side effect modelled as always succeeding, while GetItems is
  modelled by the optional preloaded history in the runner configuration.
-/

/-- ToolCall from pkg/agents (types): id, name, arguments map. -/
structure ToolCall where
  id : String
  name : String
  arguments : List (String × String)
deriving Repr, DecidableEq

/-- ToolResponse from pkg/agents: tool_call_id, content (nil-able), error.
Content is the Go `interface` result of Execute, modelled as an optional
string (`none` is the nil interface). -/
structure ToolResponse where
  toolCallID : String
  content : Option String
  error : Option String
deriving Repr, DecidableEq

/-- Message from pkg/agents: role, content, tool_calls, metadata
(timestamp omitted, see module conventions). -/
structure Message where
  role : String
  content : String
  toolCalls : List ToolCall
  metadata : List (String × String)
deriving Repr, DecidableEq

/-- HandoffRequest from pkg/agents and pkg/providers. -/
structure HandoffRequest where
  targetAgent : String
  contextData : List (String × String)
  reason : String
deriving Repr, DecidableEq

/-- Usage and the parts of providers.Completion the runner consumes:
message, usage total tokens, tool calls, optional handoff, optional
structured output value. -/
structure Completion where
  message : Message
  usageTotalTokens : Nat
  toolCalls : List ToolCall
  handoff : Option HandoffRequest
  structuredOutput : Option String
deriving Repr, DecidableEq

/-- A Tool (pkg/tools interface) as the runner sees it: a name, an Execute
function returning (result, error) — both components as Go returns them —
and the result of its own Validate method. Description and Schema are
carried only to the provider and do not affect the orchestration control
flow, so they are omitted. -/
structure Tool where
  name : String
  exec : List (String × String) → Option String × Option String
  validateErr : Option String

/-- A Guardrail (pkg/guardrails interface): Validate over content.
The guardrail identity string used in error wrapping is its `name`. -/
structure Guardrail where
  name : String
  validate : String → Option String

/-- Agent from pkg/agents: name, instructions, model, tools, handoffs,
guardrails, and whether an OutputType (structured-output contract) is
declared. The runner only tests OutputType against nil, so it is a Bool.
Temperature, MaxTokens and TopP never affect orchestration control flow
and are omitted. The handoff map is a derived view of `handoffs` (see
`Agent.getHandoff`). Handoffs make the type recursive, hence inductive. -/
inductive Agent : Type where
  | mk (name instructions model : String)
       (tools : List Tool)
       (handoffs : List Agent)
       (guardrails : List Guardrail)
       (hasOutputType : Bool)

/-- Agent name accessor. -/
def Agent.name : Agent → String
  | .mk n _ _ _ _ _ _ => n

/-- Agent instructions accessor. -/
def Agent.instructions : Agent → String
  | .mk _ i _ _ _ _ _ => i

/-- Agent model accessor. -/
def Agent.model : Agent → String
  | .mk _ _ m _ _ _ _ => m

/-- Agent tools accessor. -/
def Agent.tools : Agent → List Tool
  | .mk _ _ _ ts _ _ _ => ts

/-- Agent handoffs accessor. -/
def Agent.handoffs : Agent → List Agent
  | .mk _ _ _ _ hs _ _ => hs

/-- Agent guardrails accessor. -/
def Agent.guardrails : Agent → List Guardrail
  | .mk _ _ _ _ _ gs _ => gs

/-- Whether the agent declares a structured-output contract. -/
def Agent.hasOutputType : Agent → Bool
  | .mk _ _ _ _ _ _ o => o

/-- GetHandoff from options.go: O(1) lookup in the handoff map. The map is
built by iterating the Handoffs slice and assigning by name, so for
duplicate names the later entry overwrites the earlier; the lookup is
therefore the last declared handoff carrying the requested name. -/
def Agent.getHandoff (a : Agent) (nm : String) : Option Agent :=
  a.handoffs.reverse.find? (fun h => h.name = nm)

/-- The tool-validation pass of Agent.Validate: first failing tool wins,
wrapped as in the source (invalid tool name: inner error). -/
def validateTools : List Tool → Option String
  | [] => none
  | t :: ts =>
    match t.validateErr with
    | some e => some ("invalid tool " ++ t.name ++ ": " ++ e)
    | none => validateTools ts

mutual
/-- validateHandoffs from options.go: depth-first walk with the set of
names currently on the recursion stack; revisiting a name on the stack is
a circular handoff and aborts with that name. The deferred delete in the
Go source means each child is explored with the same path set, which is
what passing the extended list to every child models. -/
def validateHandoffs : Agent → List String → Option String
  | .mk n _ _ _ hs _ _, visited =>
    if n ∈ visited then some ("circular handoff detected: " ++ n)
    else validateHandoffsList hs (n :: visited)

/-- Walk the handoff children in declaration order, stopping at the first
error, as the Go for-loop does. -/
def validateHandoffsList : List Agent → List String → Option String
  | [], _ => none
  | a :: rest, visited =>
    match validateHandoffs a visited with
    | some e => some e
    | none => validateHandoffsList rest visited
end

/-- Agent.Validate from options.go: empty name, then empty model, then the
tools in order, then the handoff-cycle walk. -/
def Agent.Validate (a : Agent) : Option String :=
  if a.name = "" then some "agent name cannot be empty"
  else if a.model = "" then some "model cannot be empty"
  else
    match validateTools a.tools with
    | some e => some e
    | none => validateHandoffs a []

mutual
/-- Modelled from the spec: the handoff graph rooted at an agent contains
a cycle, expressed as the spec describes it — a depth-first traversal
keeping the names currently on the stack, where meeting a name already on
the stack is a cycle. This is the spec-side definition that
`Agent.Validate` is compared against. -/
def cycleDFS : Agent → List String → Bool
  | .mk n _ _ _ hs _ _, stack =>
    decide (n ∈ stack) || cycleDFSList hs (n :: stack)

/-- Any child subtree exhibits a cycle. -/
def cycleDFSList : List Agent → List String → Bool
  | [], _ => false
  | a :: rest, stack => cycleDFS a stack || cycleDFSList rest stack
end

/-- The handoff graph rooted at the agent contains a cycle. -/
def hasHandoffCycle (a : Agent) : Bool :=
  cycleDFS a []

/-- The agent constructed by NewAgent before options are applied: given
name, model defaulted to gpt-4, everything else empty (the numeric
defaults are not modelled, see the module conventions). -/
def defaultAgent (nm : String) : Agent :=
  .mk nm "" "gpt-4" [] [] [] false

/-- NewAgent from options.go: build the default agent and apply the
options in order. NewAgent has no error return: it performs no validation
and always yields an agent. The handoff-map rebuild it performs is the
derived view modelled by `Agent.getHandoff`. -/
def NewAgent (nm : String) (opts : List (Agent → Agent)) : Agent :=
  opts.foldl (fun a f => f a) (defaultAgent nm)

/-- WithModel option. -/
def WithModel (m : String) : Agent → Agent
  | .mk n i _ ts hs gs o => .mk n i m ts hs gs o

/-- WithInstructions option. -/
def WithInstructions (ins : String) : Agent → Agent
  | .mk n _ m ts hs gs o => .mk n ins m ts hs gs o

/-- WithTools option: appends tools. -/
def WithTools (newTools : List Tool) : Agent → Agent
  | .mk n i m ts hs gs o => .mk n i m (ts ++ newTools) hs gs o

/-- WithHandoffs option: appends handoff agents (and in the source
rebuilds the handoff map, which is derived here). -/
def WithHandoffs (agents : List Agent) : Agent → Agent
  | .mk n i m ts hs gs o => .mk n i m ts (hs ++ agents) gs o

/-- WithGuardrails option: appends guardrails. -/
def WithGuardrails (newGs : List Guardrail) : Agent → Agent
  | .mk n i m ts hs gs o => .mk n i m ts hs (gs ++ newGs) o

/-- WithOutputType option: declares a structured-output contract. -/
def WithOutputType : Agent → Agent
  | .mk n i m ts hs gs _ => .mk n i m ts hs gs true

/-- findTool from runner: first declared tool whose Name matches. -/
def findTool (agent : Agent) (nm : String) : Option Tool :=
  agent.tools.find? (fun t => t.name = nm)

/-- The per-call body shared by both dispatch branches of executeTools: a
name miss stores a tool-not-found error in the call's slot; otherwise the
tool executes and its (result, error) pair is stored. -/
def dispatchOne (agent : Agent) (call : ToolCall) : ToolResponse :=
  match findTool agent call.name with
  | none =>
    { toolCallID := call.id, content := none
      error := some ("tool not found: " ++ call.name) }
  | some t =>
    let r := t.exec call.arguments
    { toolCallID := call.id, content := r.1, error := r.2 }

/-- The value the errgroup worker closure returns for one call in the
parallel branch of executeTools. Both paths of the closure store their
response in the slot and return nil, so the closure's return value is nil
in every case; the fatal abandon path of the errgroup is therefore never
fed an error by this code. -/
def workerReturn (agent : Agent) (call : ToolCall) : Option String :=
  match findTool agent call.name with
  | none => none
  | some _ => none

/-- Index the tool calls of a batch with their slot positions, starting at
a given offset; `enumFrom 0 calls` is the list of (slot, call) jobs the
parallel branch spawns. -/
def enumFrom : Nat → List ToolCall → List (Nat × ToolCall)
  | _, [] => []
  | i, c :: cs => (i, c) :: enumFrom (i + 1) cs

/-- The fan-out and fan-in of the parallel branch: a pre-sized output
array (Go gives zero-value ToolResponse slots) into which each job writes
only its own slot, joined with the first error any worker returned. The
job list is the schedule; the loop theorems quantify over all
permutations of the canonical schedule, reflecting that wall-clock
completion order is unspecified. -/
def writeSlots (agent : Agent) (n : Nat) (jobs : List (Nat × ToolCall)) :
    List ToolResponse × Option String :=
  jobs.foldl
    (fun acc job =>
      (acc.1.set job.1 (dispatchOne agent job.2),
       acc.2 <|> workerReturn agent job.2))
    (List.replicate n { toolCallID := "", content := none, error := none }, none)

/-- executeTools from runner: the parallel branch (parallelTools enabled
and more than one call) runs the slot-writing fan-out under the errgroup
and fails iff the join reports an error; the sequential branch fills the
slots in input order. -/
def executeTools (parallelTools : Bool) (agent : Agent) (calls : List ToolCall) :
    Except String (List ToolResponse) :=
  if parallelTools ∧ 1 < calls.length then
    let out := writeSlots agent calls.length (enumFrom 0 calls)
    match out.2 with
    | some e => .error e
    | none => .ok out.1
  else
    .ok (calls.map (dispatchOne agent))

/-- Rendering of a Go nil-able value by the percent-v verb of Sprintf, for
the value model used here (nil or a string). -/
def formatValue : Option String → String
  | none => "<nil>"
  | some s => s

/-- The tool-role message executeLoop appends for one ToolResponse: the
content is the Sprintf percent-v rendering of the response Content only —
the response Error is not consulted — and the metadata carries the
originating tool_call_id. -/
def toolMessage (r : ToolResponse) : Message :=
  { role := "tool", content := formatValue r.content, toolCalls := []
    metadata := [("tool_call_id", r.toolCallID)] }

/-- The wrapping validateGuardrails applies to the first failing
guardrail, with the guardrail identity (the percent-T type tag in the
source) modelled by the guardrail's name. -/
def firstGuardrailFailure : List Guardrail → String → Option String
  | [], _ => none
  | g :: gs, content =>
    match g.validate content with
    | some e => some ("guardrail " ++ g.name ++ " failed: " ++ e)
    | none => firstGuardrailFailure gs content

/-- validateGuardrails from runner: nothing to do when the history or the
guardrail list is empty; otherwise every guardrail validates the content
of the last message only, in declaration order, first failure wins. -/
def validateGuardrails (agent : Agent) (messages : List Message) : Option String :=
  if messages.length = 0 ∨ agent.guardrails.length = 0 then none
  else
    match messages.getLast? with
    | none => none
    | some last => firstGuardrailFailure agent.guardrails last.content

/-- RunMetrics from runner (Duration omitted, wall clock). -/
structure RunMetrics where
  totalTurns : Nat
  totalTokens : Nat
  toolCalls : Nat
  handoffs : Nat
deriving Repr, DecidableEq

/-- FinalOutput of a run: the plain text of the terminal reply, or the
structured value. -/
inductive FinalOutput where
  | text (s : String)
  | structured (s : String)
deriving Repr, DecidableEq

/-- RunResult from runner: final output, full history, the agent that
produced the terminal turn (a nil-able pointer in Go), and metrics. -/
structure RunResult where
  finalOutput : FinalOutput
  messages : List Message
  agent : Option Agent
  metrics : RunMetrics

/-- The wrapped-error chains the runner builds with Errorf: each
constructor is one wrap site, carrying the inner message. -/
inductive RunError where
  | maxTurnsExceeded
  | guardrailFailed (e : String)
  | completionFailed (e : String)
  | handoffNotFound (target : String)
  | toolExecutionFailed (e : String)
  | sessionLoadFailed (e : String)
deriving Repr, DecidableEq

/-- The message of a RunError as the percent-v verb renders it, matching
the Errorf format strings in the source (ErrMaxTurnsExceeded is the
sentinel from the errors file). -/
def RunError.message : RunError → String
  | .maxTurnsExceeded => "maximum turns exceeded"
  | .guardrailFailed e => "guardrail validation failed: " ++ e
  | .completionFailed e => "completion failed: " ++ e
  | .handoffNotFound t => "handoff agent not found: " ++ t
  | .toolExecutionFailed e => "tool execution failed: " ++ e
  | .sessionLoadFailed e => "failed to load session: " ++ e

/-- Runner configuration: the fields of Runner that drive executeLoop,
with the provider modelled as in the module conventions and the optional
session preload standing for GetItems (an error there is a failed load). -/
structure RunnerCfg where
  provider : Nat → Agent → List Message → Except String Completion
  maxTurns : Nat
  parallelTools : Bool
  session : Option (Except String (List Message))

/-- Outcome of one iteration of the executeLoop body: a fatal error
raised before the completion call, a fatal error after it, a terminal
RunResult, or the state carried into the next iteration. -/
inductive TurnOutcome where
  | fatalPre (e : RunError)
  | fatalPost (e : RunError)
  | finished (r : RunResult)
  | next (agent : Agent) (messages : List Message) (metrics : RunMetrics)

/-- One iteration of the executeLoop body, in source order: guardrail
gate; completion (usage folded into metrics immediately, reply appended);
structured output under a declared contract is terminal; a handoff bumps
the handoff count, resolves via GetHandoff (a miss is fatal) and swaps the
agent; tool calls bump the count, dispatch, and append one tool message
per response; otherwise plain text is terminal when no contract is
declared, and the loop continues when one is. -/
def stepTurn (cfg : RunnerCfg) (turn : Nat) (agent : Agent)
    (messages : List Message) (metrics : RunMetrics) : TurnOutcome :=
  match validateGuardrails agent messages with
  | some e => .fatalPre (.guardrailFailed e)
  | none =>
    match cfg.provider turn agent messages with
    | .error e => .fatalPost (.completionFailed e)
    | .ok c =>
      let metrics1 := { metrics with totalTokens := metrics.totalTokens + c.usageTotalTokens }
      let messages1 := messages ++ [c.message]
      match agent.hasOutputType, c.structuredOutput with
      | true, some s =>
        .finished { finalOutput := .structured s, messages := messages1
                    agent := some agent
                    metrics := { metrics1 with totalTurns := turn + 1 } }
      | _, _ =>
        match c.handoff with
        | some h =>
          let metrics2 := { metrics1 with handoffs := metrics1.handoffs + 1 }
          match agent.getHandoff h.targetAgent with
          | none => .fatalPost (.handoffNotFound h.targetAgent)
          | some next => .next next messages1 metrics2
        | none =>
          if 0 < c.toolCalls.length then
            let metrics3 := { metrics1 with toolCalls := metrics1.toolCalls + c.toolCalls.length }
            match executeTools cfg.parallelTools agent c.toolCalls with
            | .error e => .fatalPost (.toolExecutionFailed e)
            | .ok rs => .next agent (messages1 ++ rs.map toolMessage) metrics3
          else if agent.hasOutputType then
            .next agent messages1 metrics1
          else
            .finished { finalOutput := .text c.message.content, messages := messages1
                        agent := some agent
                        metrics := { metrics1 with totalTurns := turn + 1 } }

/-- executeLoop from runner, instrumented: the for-loop with turn counter
`turn` and remaining budget `fuel` (at the top call fuel is MaxTurns and
turn is 0). The second component is a ghost count of how many times the
completion provider was invoked during the call; the first component is
exactly the source's return value. Running out of fuel without a terminal
state returns ErrMaxTurnsExceeded. -/
def execLoop (cfg : RunnerCfg) :
    Nat → Nat → Agent → List Message → RunMetrics →
    Except RunError RunResult × Nat
  | 0, _, _, _, _ => (.error .maxTurnsExceeded, 0)
  | fuel + 1, turn, agent, messages, metrics =>
    match stepTurn cfg turn agent messages metrics with
    | .fatalPre e => (.error e, 0)
    | .fatalPost e => (.error e, 1)
    | .finished r => (.ok r, 1)
    | .next a' m' mt' =>
      let rest := execLoop cfg fuel (turn + 1) a' m' mt'
      (rest.1, rest.2 + 1)

/-- executeLoop as the source returns it (without the ghost invocation
count): fresh metrics, turn 0, budget MaxTurns. -/
def executeLoop (cfg : RunnerCfg) (agent : Agent) (messages : List Message) :
    Except RunError RunResult :=
  (execLoop cfg cfg.maxTurns 0 agent messages ⟨0, 0, 0, 0⟩).1

/-- Number of provider invocations a run of executeLoop performs. -/
def executeLoopCalls (cfg : RunnerCfg) (agent : Agent) (messages : List Message) : Nat :=
  (execLoop cfg cfg.maxTurns 0 agent messages ⟨0, 0, 0, 0⟩).2

/-- Runner.Run: seed the history with the user input message, prefixed by
the session history when a session is configured (a load failure is
fatal), then run the loop. Persisting the result back to the session is an
external effect, modelled as succeeding. -/
def Run (cfg : RunnerCfg) (agent : Agent) (input : String) :
    Except RunError RunResult :=
  let userMsg : Message := { role := "user", content := input, toolCalls := [], metadata := [] }
  match cfg.session with
  | none => executeLoop cfg agent [userMsg]
  | some (.error e) => .error (.sessionLoadFailed e)
  | some (.ok history) => executeLoop cfg agent (history ++ [userMsg])

/-- The single value RunAsync delivers on its completion channel: the
goroutine runs Run and sends its result, except that an error is replaced
by a degraded RunResult whose final output is the formatted error text and
whose other fields are zero values. -/
def RunAsyncDelivered (cfg : RunnerCfg) (agent : Agent) (input : String) : RunResult :=
  match Run cfg agent input with
  | .ok r => r
  | .error e =>
    { finalOutput := .text ("Error: " ++ e.message), messages := []
      agent := none, metrics := ⟨0, 0, 0, 0⟩ }

/-- Metrics of a loop outcome, when a RunResult was returned at all. -/
def resultMetrics : Except RunError RunResult → Option RunMetrics
  | .ok r => some r.metrics
  | .error _ => none

/-- Message history of a loop outcome, empty when the run failed. -/
def resultMessages : Except RunError RunResult → List Message
  | .ok r => r.messages
  | .error _ => []

/-- A user message as Run seeds it. -/
def userMessage (s : String) : Message :=
  { role := "user", content := s, toolCalls := [], metadata := [] }

/-- The completion the NoOpProvider of the source returns: plain
assistant text, fifteen total tokens, no tool calls, no handoff, no
structured output. Used by the concrete runs below. -/
def noopCompletion : Completion :=
  { message := { role := "assistant", content := "Hello from NoOpProvider"
                 toolCalls := [], metadata := [] }
    usageTotalTokens := 15, toolCalls := [], handoff := none
    structuredOutput := none }

/-- A concrete agent declaring a structured-output contract and nothing
else. -/
def contractAgent : Agent := .mk "Extractor" "" "gpt-4" [] [] [] true

/-- A runner whose provider never emits a terminal signal for an agent
with a declared contract: plain text only, never structured output. -/
def starvingCfg : RunnerCfg :=
  { provider := fun _ _ _ => .ok noopCompletion, maxTurns := 3
    parallelTools := true, session := none }

/-- A concrete calculator tool. -/
def addTool : Tool :=
  { name := "add", exec := fun _ => (some "4", none), validateErr := none }

/-- A concrete greeter tool. -/
def greetTool : Tool :=
  { name := "greet", exec := fun _ => (some "Hello, Ada!", none), validateErr := none }

/-- A concrete agent declaring the two tools above. -/
def mathAgent : Agent := .mk "Math" "" "gpt-4" [addTool, greetTool] [] [] false

/-- A call to the declared add tool. -/
def callAdd : ToolCall :=
  { id := "call-1", name := "add", arguments := [("a", "2"), ("b", "2")] }

/-- A call to an undeclared tool name. -/
def callGhost : ToolCall := { id := "call-2", name := "ghost", arguments := [] }

/-- A call to the declared greet tool. -/
def callGreet : ToolCall := { id := "call-3", name := "greet", arguments := [] }

/-- A completion requesting three tool calls, one to an unknown name. -/
def toolReply : Completion :=
  { message := { role := "assistant", content := "calling tools"
                 toolCalls := [callAdd, callGhost, callGreet], metadata := [] }
    usageTotalTokens := 11, toolCalls := [callAdd, callGhost, callGreet]
    handoff := none, structuredOutput := none }

/-- A terminal plain completion. -/
def doneReply : Completion :=
  { message := { role := "assistant", content := "done", toolCalls := [], metadata := [] }
    usageTotalTokens := 3, toolCalls := [], handoff := none, structuredOutput := none }

/-- A runner whose provider requests the three tool calls on the first
turn and then finishes. -/
def toolsCfg : RunnerCfg :=
  { provider := fun n _ _ => if n = 0 then .ok toolReply else .ok doneReply
    maxTurns := 10, parallelTools := true, session := none }

/-- A concrete specialist agent. -/
def billingAgent : Agent := .mk "Billing" "" "gpt-4" [] [] [] false

/-- A concrete triage agent whose only handoff target is the specialist. -/
def triageAgent : Agent := .mk "Triage" "" "gpt-4" [] [billingAgent] [] false

/-- The handoff the triage agent's provider requests. -/
def handoffReq : HandoffRequest :=
  { targetAgent := "Billing", contextData := [], reason := "billing question" }

/-- First-turn completion: a handoff and no tool calls. -/
def triageReply : Completion :=
  { message := { role := "assistant", content := "routing to billing"
                 toolCalls := [], metadata := [] }
    usageTotalTokens := 7, toolCalls := [], handoff := some handoffReq
    structuredOutput := none }

/-- Second-turn completion from the specialist: plain terminal text. -/
def billingReply : Completion :=
  { message := { role := "assistant", content := "Your invoice is paid."
                 toolCalls := [], metadata := [] }
    usageTotalTokens := 9, toolCalls := [], handoff := none, structuredOutput := none }

/-- A runner whose provider hands off on the first turn and answers
terminally on the second. -/
def handoffCfg : RunnerCfg :=
  { provider := fun n _ _ => if n = 0 then .ok triageReply else .ok billingReply
    maxTurns := 10, parallelTools := true, session := none }

/-- A concrete guardrail rejecting one specific content string. -/
def noBadWord : Guardrail :=
  { name := "NoBadWord"
    validate := fun s => if s = "bad" then some "content contains bad" else none }

/-- A concrete agent guarded by the guardrail above. -/
def guardedAgent : Agent := .mk "Guarded" "" "gpt-4" [] [] [noBadWord] false

/-- A runner for the guarded agent. -/
def guardedCfg : RunnerCfg :=
  { provider := fun _ _ _ => .ok noopCompletion, maxTurns := 5
    parallelTools := true, session := none }

/-- An agent built by NewAgent whose handoff set is cyclic: the handoff
target carries the same name as the root, which the DFS reports as a
circular handoff. NewAgent constructs it without any error. -/
def cyclicAgent : Agent := NewAgent "A" [WithHandoffs [NewAgent "A" []]]

/-- A runner for the cyclic agent. -/
def cyclicCfg : RunnerCfg :=
  { provider := fun _ _ _ => .ok noopCompletion, maxTurns := 5
    parallelTools := true, session := none }

/-- Every errgroup worker closure returns nil. -/
theorem workerReturn_eq_none (agent : Agent) (call : ToolCall) :
    workerReturn agent call = none := by
  unfold workerReturn
  cases findTool agent call.name <;> rfl

/-- The slot-writing fold preserves the joined error component, since
each worker returns nil. -/
theorem writeSlots_foldl_snd (agent : Agent) (jobs : List (Nat × ToolCall))
    (acc : List ToolResponse × Option String) :
    (jobs.foldl
      (fun acc job =>
        (acc.1.set job.1 (dispatchOne agent job.2),
         acc.2 <|> workerReturn agent job.2)) acc).2 = acc.2 := by
  induction jobs generalizing acc with
  | nil => rfl
  | cons j rest ih =>
    rw [List.foldl_cons, ih]
    rw [show workerReturn agent j.2 = none from workerReturn_eq_none agent j.2]
    cases acc.2 <;> rfl

/-- The join of the parallel fan-out reports no error. -/
theorem writeSlots_snd_eq_none (agent : Agent) (n : Nat)
    (jobs : List (Nat × ToolCall)) : (writeSlots agent n jobs).2 = none := by
  unfold writeSlots
  exact writeSlots_foldl_snd agent jobs _

/-- The slot-writing fold preserves the length of the output array. -/
theorem writeSlots_foldl_length (agent : Agent) (jobs : List (Nat × ToolCall))
    (acc : List ToolResponse × Option String) :
    (jobs.foldl
      (fun acc job =>
        (acc.1.set job.1 (dispatchOne agent job.2),
         acc.2 <|> workerReturn agent job.2)) acc).1.length = acc.1.length := by
  induction jobs generalizing acc with
  | nil => rfl
  | cons j rest ih =>
    simp only [List.foldl_cons, ih, List.length_set]

/-- A slot no job writes to keeps its initial value. -/
theorem writeSlots_foldl_not_mem (agent : Agent) (jobs : List (Nat × ToolCall))
    (acc : List ToolResponse × Option String) (k : Nat)
    (hk : k ∉ jobs.map Prod.fst) :
    (jobs.foldl
      (fun acc job =>
        (acc.1.set job.1 (dispatchOne agent job.2),
         acc.2 <|> workerReturn agent job.2)) acc).1[k]? = acc.1[k]? := by
  induction jobs generalizing acc with
  | nil => rfl
  | cons j rest ih =>
    simp only [List.map_cons, List.mem_cons, not_or] at hk
    simp only [List.foldl_cons, ih _ hk.2]
    exact List.getElem?_set_ne (fun h => hk.1 h.symm)

/-- With pairwise-distinct slot indices, the slot of a job holds that
job's response after the fold, regardless of the job order. -/
theorem writeSlots_foldl_mem (agent : Agent) (jobs : List (Nat × ToolCall))
    (acc : List ToolResponse × Option String) (k : Nat) (c : ToolCall)
    (hnd : (jobs.map Prod.fst).Nodup) (hmem : (k, c) ∈ jobs)
    (hlen : k < acc.1.length) :
    (jobs.foldl
      (fun acc job =>
        (acc.1.set job.1 (dispatchOne agent job.2),
         acc.2 <|> workerReturn agent job.2)) acc).1[k]? =
      some (dispatchOne agent c) := by
  induction jobs generalizing acc with
  | nil => cases hmem
  | cons j rest ih =>
    simp only [List.map_cons, List.nodup_cons] at hnd
    rcases List.mem_cons.mp hmem with heq | hmemRest
    · subst heq
      have hk : k ∉ rest.map Prod.fst := hnd.1
      simp only [List.foldl_cons]
      rw [writeSlots_foldl_not_mem agent rest _ k hk]
      exact List.getElem?_set_self hlen
    · simp only [List.foldl_cons]
      exact ih _ hnd.2 hmemRest (by simpa using hlen)

/-- enumFrom preserves length. -/
theorem enumFrom_length (i : Nat) (l : List ToolCall) :
    (enumFrom i l).length = l.length := by
  induction l generalizing i with
  | nil => rfl
  | cons c cs ih => simp [enumFrom, ih]

/-- The slots of the canonical schedule are the consecutive indices. -/
theorem enumFrom_map_fst (i : Nat) (l : List ToolCall) :
    (enumFrom i l).map Prod.fst = List.range' i l.length := by
  induction l generalizing i with
  | nil => rfl
  | cons c cs ih => simp [enumFrom, List.range'_succ, ih]

/-- Every position of the batch appears in the canonical schedule paired
with its call. -/
theorem enumFrom_mem (l : List ToolCall) (i k : Nat) (c : ToolCall)
    (h : l[k]? = some c) : (i + k, c) ∈ enumFrom i l := by
  induction l generalizing i k with
  | nil => simp at h
  | cons d ds ih =>
    cases k with
    | zero =>
      simp only [List.getElem?_cons_zero, Option.some_inj] at h
      subst h
      simp [enumFrom]
    | succ k' =>
      simp only [List.getElem?_cons_succ] at h
      have := ih (i + 1) k' h
      simp only [enumFrom, List.mem_cons]
      right
      have harith : i + (k' + 1) = i + 1 + k' := by omega
      rw [harith]
      exact this

/-- Schedule independence of the parallel fan-out: any permutation of the
canonical job schedule — any wall-clock completion order — produces the
response array of the sequential dispatch, in input slot order. -/
theorem writeSlots_perm (agent : Agent) (calls : List ToolCall)
    (sched : List (Nat × ToolCall)) (hp : sched.Perm (enumFrom 0 calls)) :
    (writeSlots agent calls.length sched).1 = calls.map (dispatchOne agent) := by
  have hnd : (sched.map Prod.fst).Nodup := by
    have h1 : (sched.map Prod.fst).Perm ((enumFrom 0 calls).map Prod.fst) := hp.map Prod.fst
    have h2 : ((enumFrom 0 calls).map Prod.fst).Nodup := by
      rw [enumFrom_map_fst]
      apply List.nodup_range'
      norm_num
    exact h1.nodup_iff.mpr h2
  apply List.ext_getElem?_iff.mpr
  intro k
  by_cases hk : k < calls.length
  · obtain ⟨c, hc⟩ : ∃ c, calls[k]? = some c := by
      simp [List.getElem?_eq_getElem hk]
    have hmem : (k, c) ∈ sched := by
      have := enumFrom_mem calls 0 k c hc
      simp only [Nat.zero_add] at this
      exact hp.mem_iff.mpr this
    unfold writeSlots
    rw [writeSlots_foldl_mem agent sched _ k c hnd hmem (by simpa using hk)]
    simp [List.getElem?_map, hc]
  · have h1 : (writeSlots agent calls.length sched).1.length = calls.length := by
      unfold writeSlots
      rw [writeSlots_foldl_length]
      simp
    rw [List.getElem?_eq_none (by rw [h1]; omega),
        List.getElem?_eq_none (by simp only [List.length_map]; omega)]

/-- executeTools never fails and both dispatch policies fill every slot
with the response of its own call, in input order. -/
theorem executeTools_eq_map (p : Bool) (agent : Agent) (calls : List ToolCall) :
    executeTools p agent calls = .ok (calls.map (dispatchOne agent)) := by
  unfold executeTools
  by_cases h : p = true ∧ 1 < calls.length
  · simp only [if_pos h, writeSlots_snd_eq_none]
    rw [writeSlots_perm agent calls (enumFrom 0 calls) (List.Perm.refl _)]
  · simp only [if_neg h]

/-- The tool-validation pass fails exactly when some tool fails its own
validation. -/
theorem validateTools_isSome (ts : List Tool) :
    (validateTools ts).isSome ↔ ∃ t ∈ ts, t.validateErr.isSome := by
  induction ts with
  | nil => simp [validateTools]
  | cons t rest ih =>
    simp only [validateTools]
    cases hv : t.validateErr with
    | some e => simp [hv]
    | none => simpa [hv] using ih

mutual
/-- The source DFS errs exactly when the spec-side DFS reports a cycle,
for every path-visited stack. -/
theorem validateHandoffs_isSome (a : Agent) (v : List String) :
    (validateHandoffs a v).isSome = cycleDFS a v := by
  cases a with
  | mk n i m ts hs gs o =>
    rw [validateHandoffs, cycleDFS]
    by_cases h : n ∈ v
    · simp [h]
    · simp only [h, if_neg h, decide_eq_false h, Bool.false_or]
      exact validateHandoffsList_isSome hs (n :: v)

/-- List version of the DFS agreement. -/
theorem validateHandoffsList_isSome (l : List Agent) (v : List String) :
    (validateHandoffsList l v).isSome = cycleDFSList l v := by
  cases l with
  | nil => rw [validateHandoffsList, cycleDFSList]; rfl
  | cons a rest =>
    rw [validateHandoffsList, cycleDFSList]
    cases hva : validateHandoffs a v with
    | some e =>
      have : cycleDFS a v = true := by rw [← validateHandoffs_isSome a v, hva]; rfl
      simp [this]
    | none =>
      have : cycleDFS a v = false := by rw [← validateHandoffs_isSome a v, hva]; rfl
      simp only [this, Bool.false_or]
      exact validateHandoffsList_isSome rest v
end

/-- C2: Agent.Validate returns an error if and only if the agent's name is
empty, or its model is empty, or some tool fails its own validation, or
the handoff graph rooted at the agent contains a cycle, the latter
detected by a depth-first traversal with a path-visited set aborting on a
name already on the stack. -/
theorem validate_fails_iff (a : Agent) :
    (Agent.Validate a).isSome ↔
      a.name = "" ∨ a.model = "" ∨
      (∃ t ∈ a.tools, t.validateErr.isSome) ∨ hasHandoffCycle a = true := by
  unfold Agent.Validate hasHandoffCycle
  by_cases hn : a.name = ""
  · simp [hn]
  · by_cases hm : a.model = ""
    · simp [hn, hm]
    · simp only [if_neg hn, if_neg hm]
      cases hts : validateTools a.tools with
      | some e =>
        have hsome : (validateTools a.tools).isSome := by rw [hts]; rfl
        rw [validateTools_isSome] at hsome
        simp [hn, hm, hsome]
      | none =>
        have hno : ¬ ∃ t ∈ a.tools, t.validateErr.isSome := by
          rw [← validateTools_isSome, hts]
          simp
        simp [hn, hm, hno, validateHandoffs_isSome]

/-- A failing guardrail gate makes the iteration fatal before the
completion provider is consulted. -/
theorem stepTurn_guardrail (cfg : RunnerCfg) (turn : Nat) (agent : Agent)
    (msgs : List Message) (metrics : RunMetrics) (e : String)
    (hg : validateGuardrails agent msgs = some e) :
    stepTurn cfg turn agent msgs metrics = .fatalPre (.guardrailFailed e) := by
  unfold stepTurn
  rw [hg]

/-- A completion carrying a resolvable handoff and no structured output
under a contract swaps the agent and continues with the shared history. -/
theorem stepTurn_handoff (cfg : RunnerCfg) (turn : Nat) (agent : Agent)
    (msgs : List Message) (metrics : RunMetrics) (c : Completion)
    (h : HandoffRequest) (b : Agent)
    (hg : validateGuardrails agent msgs = none)
    (hc : cfg.provider turn agent msgs = .ok c)
    (hns : agent.hasOutputType = true → c.structuredOutput = none)
    (hh : c.handoff = some h)
    (hb : agent.getHandoff h.targetAgent = some b) :
    stepTurn cfg turn agent msgs metrics =
      .next b (msgs ++ [c.message])
        { metrics with totalTokens := metrics.totalTokens + c.usageTotalTokens
                       handoffs := metrics.handoffs + 1 } := by
  unfold stepTurn
  cases hot : agent.hasOutputType with
  | true => simp only [hg, hc, hot, hns hot, hh, hb]
  | false =>
    cases hso : c.structuredOutput <;>
      simp only [hg, hc, hot, hso, hh, hb]

/-- A completion carrying an unresolvable handoff is fatal. -/
theorem stepTurn_handoff_missing (cfg : RunnerCfg) (turn : Nat) (agent : Agent)
    (msgs : List Message) (metrics : RunMetrics) (c : Completion)
    (h : HandoffRequest)
    (hg : validateGuardrails agent msgs = none)
    (hc : cfg.provider turn agent msgs = .ok c)
    (hns : agent.hasOutputType = true → c.structuredOutput = none)
    (hh : c.handoff = some h)
    (hb : agent.getHandoff h.targetAgent = none) :
    stepTurn cfg turn agent msgs metrics =
      .fatalPost (.handoffNotFound h.targetAgent) := by
  unfold stepTurn
  cases hot : agent.hasOutputType with
  | true => simp only [hg, hc, hot, hns hot, hh, hb]
  | false =>
    cases hso : c.structuredOutput <;>
      simp only [hg, hc, hot, hso, hh, hb]

/-- A plain reply with no tools, no handoff and no declared contract is
terminal with the reply text as final output. -/
theorem stepTurn_text_terminal (cfg : RunnerCfg) (turn : Nat) (agent : Agent)
    (msgs : List Message) (metrics : RunMetrics) (c : Completion)
    (hg : validateGuardrails agent msgs = none)
    (hc : cfg.provider turn agent msgs = .ok c)
    (hot : agent.hasOutputType = false)
    (hh : c.handoff = none)
    (htc : c.toolCalls.length = 0) :
    stepTurn cfg turn agent msgs metrics =
      .finished { finalOutput := .text c.message.content
                  messages := msgs ++ [c.message]
                  agent := some agent
                  metrics := { metrics with
                                totalTokens := metrics.totalTokens + c.usageTotalTokens
                                totalTurns := turn + 1 } } := by
  unfold stepTurn
  cases hso : c.structuredOutput <;>
    simp [hg, hc, hot, hso, hh, htc]

/-- A completion with tool calls (and no handoff, no structured output
under a contract) dispatches the batch and continues with one tool-role
message appended per call, in input order. -/
theorem stepTurn_tools (cfg : RunnerCfg) (turn : Nat) (agent : Agent)
    (msgs : List Message) (metrics : RunMetrics) (c : Completion)
    (hg : validateGuardrails agent msgs = none)
    (hc : cfg.provider turn agent msgs = .ok c)
    (hns : agent.hasOutputType = true → c.structuredOutput = none)
    (hh : c.handoff = none)
    (htc : 0 < c.toolCalls.length) :
    stepTurn cfg turn agent msgs metrics =
      .next agent
        (msgs ++ [c.message] ++ (c.toolCalls.map (dispatchOne agent)).map toolMessage)
        { metrics with totalTokens := metrics.totalTokens + c.usageTotalTokens
                       toolCalls := metrics.toolCalls + c.toolCalls.length } := by
  unfold stepTurn
  cases hot : agent.hasOutputType with
  | true =>
    simp [hg, hc, hot, hns hot, hh, htc, executeTools_eq_map]
  | false =>
    cases hso : c.structuredOutput <;>
      simp [hg, hc, hot, hso, hh, htc, executeTools_eq_map]

/-- A turn continuing without tool calls because the agent declares a
contract the provider has not yet honoured. -/
theorem stepTurn_await_structured (cfg : RunnerCfg) (turn : Nat) (agent : Agent)
    (msgs : List Message) (metrics : RunMetrics) (c : Completion)
    (hg : validateGuardrails agent msgs = none)
    (hc : cfg.provider turn agent msgs = .ok c)
    (hot : agent.hasOutputType = true)
    (hns : c.structuredOutput = none)
    (hh : c.handoff = none)
    (htc : c.toolCalls.length = 0) :
    stepTurn cfg turn agent msgs metrics =
      .next agent (msgs ++ [c.message])
        { metrics with totalTokens := metrics.totalTokens + c.usageTotalTokens } := by
  unfold stepTurn
  simp [hg, hc, hot, hns, hh, htc]

/-- Unfolding of the loop at exhausted budget. -/
theorem execLoop_zero (cfg : RunnerCfg) (turn : Nat) (agent : Agent)
    (msgs : List Message) (metrics : RunMetrics) :
    execLoop cfg 0 turn agent msgs metrics = (.error .maxTurnsExceeded, 0) := rfl

/-- Unfolding of the loop when the iteration continues. -/
theorem execLoop_succ_next (cfg : RunnerCfg) (fuel turn : Nat) (agent : Agent)
    (msgs : List Message) (metrics : RunMetrics)
    (a' : Agent) (m' : List Message) (mt' : RunMetrics)
    (h : stepTurn cfg turn agent msgs metrics = .next a' m' mt') :
    execLoop cfg (fuel + 1) turn agent msgs metrics =
      ((execLoop cfg fuel (turn + 1) a' m' mt').1,
       (execLoop cfg fuel (turn + 1) a' m' mt').2 + 1) := by
  rw [execLoop, h]

/-- Unfolding of the loop when the iteration is terminal. -/
theorem execLoop_succ_finished (cfg : RunnerCfg) (fuel turn : Nat) (agent : Agent)
    (msgs : List Message) (metrics : RunMetrics) (r : RunResult)
    (h : stepTurn cfg turn agent msgs metrics = .finished r) :
    execLoop cfg (fuel + 1) turn agent msgs metrics = (.ok r, 1) := by
  rw [execLoop, h]

/-- Unfolding of the loop when the iteration fails before the completion
call: the provider is not invoked on that turn. -/
theorem execLoop_succ_fatalPre (cfg : RunnerCfg) (fuel turn : Nat) (agent : Agent)
    (msgs : List Message) (metrics : RunMetrics) (e : RunError)
    (h : stepTurn cfg turn agent msgs metrics = .fatalPre e) :
    execLoop cfg (fuel + 1) turn agent msgs metrics = (.error e, 0) := by
  rw [execLoop, h]

/-- Unfolding of the loop when the iteration fails after the completion
call. -/
theorem execLoop_succ_fatalPost (cfg : RunnerCfg) (fuel turn : Nat) (agent : Agent)
    (msgs : List Message) (metrics : RunMetrics) (e : RunError)
    (h : stepTurn cfg turn agent msgs metrics = .fatalPost e) :
    execLoop cfg (fuel + 1) turn agent msgs metrics = (.error e, 1) := by
  rw [execLoop, h]

/-- C1: for a run whose completion provider never emits a terminal signal
— every completion succeeds and carries no handoff, no structured output
when the agent declares a contract, and either tool calls or a declared
contract — and whose guardrail gate always passes, executeLoop fails with
the maximum-turns-exceeded error after exactly maxTurns turns: the
provider is invoked exactly maxTurns times and the error is returned not
before and not after. -/
theorem max_turns_starvation (cfg : RunnerCfg) (agent : Agent) (msgs0 : List Message)
    (Hg : ∀ msgs, validateGuardrails agent msgs = none)
    (Hp : ∀ n msgs, ∃ c, cfg.provider n agent msgs = .ok c ∧ c.handoff = none ∧
          (agent.hasOutputType = true → c.structuredOutput = none) ∧
          (c.toolCalls.length = 0 → agent.hasOutputType = true)) :
    executeLoop cfg agent msgs0 = .error .maxTurnsExceeded ∧
    executeLoopCalls cfg agent msgs0 = cfg.maxTurns := by
  have main : ∀ fuel turn msgs metrics,
      execLoop cfg fuel turn agent msgs metrics = (.error .maxTurnsExceeded, fuel) := by
    intro fuel
    induction fuel with
    | zero => intro turn msgs metrics; rfl
    | succ f ih =>
      intro turn msgs metrics
      obtain ⟨c, hc, hh, hs, ht⟩ := Hp turn msgs
      by_cases htc : 0 < c.toolCalls.length
      · rw [execLoop_succ_next cfg f turn agent msgs metrics agent _ _
            (stepTurn_tools cfg turn agent msgs metrics c (Hg msgs) hc hs hh htc),
          ih]
      · have htc0 : c.toolCalls.length = 0 := by omega
        have hot : agent.hasOutputType = true := ht htc0
        rw [execLoop_succ_next cfg f turn agent msgs metrics agent _ _
            (stepTurn_await_structured cfg turn agent msgs metrics c (Hg msgs) hc hot
              (hs hot) hh htc0),
          ih]
  exact ⟨by unfold executeLoop; rw [main], by unfold executeLoopCalls; rw [main]⟩

/-- Witness for C1: the concrete starving run exhausts its budget of three
turns, invoking the provider exactly three times. -/
theorem max_turns_starvation_witness :
    executeLoop starvingCfg contractAgent [] = .error .maxTurnsExceeded ∧
    executeLoopCalls starvingCfg contractAgent [] = 3 :=
  max_turns_starvation starvingCfg contractAgent []
    (fun msgs => by simp [validateGuardrails, starvingCfg, contractAgent, Agent.guardrails])
    (fun n msgs => ⟨noopCompletion, rfl, rfl, fun _ => rfl, fun _ => rfl⟩)

/-- C3: executeTools yields exactly one ToolResponse per ToolCall, written
at that call's input slot; a call whose name matches no declared tool
yields, at its own slot, a response carrying the tool-not-found error, and
every other call in the batch still executes into its own slot — the miss
never aborts the batch. -/
theorem tool_not_found_isolated (p : Bool) (agent : Agent) (calls : List ToolCall)
    (i : Nat) (hi : i < calls.length) :
    ∃ rs, executeTools p agent calls = .ok rs ∧ rs.length = calls.length ∧
      (∀ j (hj : j < calls.length), rs[j]? = some (dispatchOne agent calls[j])) ∧
      (findTool agent calls[i].name = none →
        rs[i]? = some { toolCallID := calls[i].id, content := none
                        error := some ("tool not found: " ++ calls[i].name) }) := by
  refine ⟨calls.map (dispatchOne agent), executeTools_eq_map p agent calls, by simp, ?_, ?_⟩
  · intro j hj
    simp [List.getElem?_map, List.getElem?_eq_getElem hj]
  · intro hnf
    simp [List.getElem?_map, List.getElem?_eq_getElem hi, dispatchOne, hnf]

/-- Witness for C3: a concrete batch of two calls where the second name is
undeclared; the miss lands in slot one and slot zero still executes. -/
theorem tool_not_found_isolated_witness :
    ∃ rs, executeTools true mathAgent [callAdd, callGhost] = .ok rs ∧
      rs.length = [callAdd, callGhost].length ∧
      (∀ j (hj : j < [callAdd, callGhost].length),
        rs[j]? = some (dispatchOne mathAgent ([callAdd, callGhost][j]))) ∧
      (findTool mathAgent ([callAdd, callGhost][1].name) = none →
        rs[1]? = some { toolCallID := [callAdd, callGhost][1].id, content := none
                        error := some ("tool not found: " ++ [callAdd, callGhost][1].name) }) :=
  tool_not_found_isolated true mathAgent [callAdd, callGhost] 1 (by decide)

/-- C4: for a batch where every name resolves to a declared tool, the
concurrent dispatch policy and the sequential dispatch policy return the
same ToolResponse array — same content, same slot order — and the
concurrent fan-out returns that very array under every completion
schedule, so the policies differ only in wall-clock timing. -/
theorem parallel_sequential_agree (agent : Agent) (calls : List ToolCall)
    (hne : 0 < calls.length)
    (hres : ∀ c ∈ calls, (findTool agent c.name).isSome) :
    executeTools true agent calls = executeTools false agent calls ∧
    ∀ sched, sched.Perm (enumFrom 0 calls) →
      (writeSlots agent calls.length sched).1 = calls.map (dispatchOne agent) := by
  refine ⟨?_, fun sched hp => writeSlots_perm agent calls sched hp⟩
  rw [executeTools_eq_map, executeTools_eq_map]

/-- Witness for C4: two resolvable calls dispatched concurrently and
sequentially agree, and a schedule that completes the second call first
still fills the slots in input order. -/
theorem parallel_sequential_agree_witness :
    executeTools true mathAgent [callAdd, callGreet] =
      executeTools false mathAgent [callAdd, callGreet] ∧
    (writeSlots mathAgent ([callAdd, callGreet] : List ToolCall).length
        [(1, callGreet), (0, callAdd)]).1 =
      [callAdd, callGreet].map (dispatchOne mathAgent) :=
  ⟨(parallel_sequential_agree mathAgent [callAdd, callGreet] (by decide)
      (by decide)).1,
   (parallel_sequential_agree mathAgent [callAdd, callGreet] (by decide)
      (by decide)).2 [(1, callGreet), (0, callAdd)] (by decide)⟩

/-- Every iteration outcome has one of the five source shapes; the fatal
tool-execution wrap is not among them, because executeTools never fails. -/
theorem stepTurn_cases (cfg : RunnerCfg) (turn : Nat) (agent : Agent)
    (msgs : List Message) (metrics : RunMetrics) :
    (∃ e, stepTurn cfg turn agent msgs metrics = .fatalPre (.guardrailFailed e)) ∨
    (∃ e, stepTurn cfg turn agent msgs metrics = .fatalPost (.completionFailed e)) ∨
    (∃ t, stepTurn cfg turn agent msgs metrics = .fatalPost (.handoffNotFound t)) ∨
    (∃ r, stepTurn cfg turn agent msgs metrics = .finished r) ∨
    (∃ a' m' mt', stepTurn cfg turn agent msgs metrics = .next a' m' mt') := by
  unfold stepTurn
  repeat' split
  all_goals first
    | exact Or.inl ⟨_, rfl⟩
    | exact Or.inr (Or.inl ⟨_, rfl⟩)
    | exact Or.inr (Or.inr (Or.inl ⟨_, rfl⟩))
    | exact Or.inr (Or.inr (Or.inr (Or.inl ⟨_, rfl⟩)))
    | exact Or.inr (Or.inr (Or.inr (Or.inr ⟨_, _, _, rfl⟩)))
    | (rename_i heq; rw [executeTools_eq_map] at heq; cases heq)

/-- No iteration outcome is the fatal tool-execution error. -/
theorem stepTurn_not_toolfail (cfg : RunnerCfg) (turn : Nat) (agent : Agent)
    (msgs : List Message) (metrics : RunMetrics) (s : String) :
    stepTurn cfg turn agent msgs metrics ≠ .fatalPre (.toolExecutionFailed s) ∧
    stepTurn cfg turn agent msgs metrics ≠ .fatalPost (.toolExecutionFailed s) := by
  rcases stepTurn_cases cfg turn agent msgs metrics with
    ⟨e, he⟩ | ⟨e, he⟩ | ⟨t, he⟩ | ⟨r, he⟩ | ⟨a', m', mt', he⟩ <;>
    exact ⟨by rw [he]; simp, by rw [he]; simp⟩

/-- C10: tool dispatch by itself can never abort a run: executeTools
always returns a nil error — in the concurrent branch every errgroup
worker returns nil and in the sequential branch errors are captured per
slot — so the fatal tool-execution-failed branch of executeLoop is
unreachable: no outcome of the loop is ever that error, even when every
tool in the batch fails. -/
theorem tool_dispatch_never_fatal :
    (∀ (p : Bool) (agent : Agent) (calls : List ToolCall),
      ∃ rs, executeTools p agent calls = .ok rs) ∧
    (∀ (cfg : RunnerCfg) (fuel turn : Nat) (agent : Agent) (msgs : List Message)
       (metrics : RunMetrics) (e : RunError) (s : String),
      (execLoop cfg fuel turn agent msgs metrics).1 = .error e →
      e ≠ .toolExecutionFailed s) := by
  constructor
  · intro p agent calls
    exact ⟨_, executeTools_eq_map p agent calls⟩
  · intro cfg fuel
    induction fuel with
    | zero =>
      intro turn agent msgs metrics e s h
      rw [execLoop_zero] at h
      simp only [Except.error.injEq] at h
      subst h
      simp
    | succ f ih =>
      intro turn agent msgs metrics e s h
      cases hst : stepTurn cfg turn agent msgs metrics with
      | fatalPre e' =>
        rw [execLoop_succ_fatalPre cfg f turn agent msgs metrics e' hst] at h
        simp only [Except.error.injEq] at h
        subst h
        intro hbad
        subst hbad
        exact stepTurn_not_toolfail cfg turn agent msgs metrics s |>.1 hst
      | fatalPost e' =>
        rw [execLoop_succ_fatalPost cfg f turn agent msgs metrics e' hst] at h
        simp only [Except.error.injEq] at h
        subst h
        intro hbad
        subst hbad
        exact stepTurn_not_toolfail cfg turn agent msgs metrics s |>.2 hst
      | finished r =>
        rw [execLoop_succ_finished cfg f turn agent msgs metrics r hst] at h
        cases h
      | next a' m' mt' =>
        rw [execLoop_succ_next cfg f turn agent msgs metrics a' m' mt' hst] at h
        exact ih (turn + 1) a' m' mt' e s h

/-- Witness for C10: the concrete single-call batch dispatches without an
error, and the budget-exhausted loop outcome is not the tool-execution
error. -/
theorem tool_dispatch_never_fatal_witness :
    (∃ rs, executeTools true mathAgent [callGhost] = .ok rs) ∧
    RunError.maxTurnsExceeded ≠ RunError.toolExecutionFailed "boom" :=
  ⟨tool_dispatch_never_fatal.1 true mathAgent [callGhost],
   tool_dispatch_never_fatal.2 starvingCfg 0 0 mathAgent [] ⟨0, 0, 0, 0⟩
     .maxTurnsExceeded "boom" rfl⟩

/-- C5: when the first completion carries a resolvable handoff and no tool
calls, the active agent is swapped to the target and the loop continues on
the shared, un-reset history; if the new agent then returns a plain
terminal reply, the run ends with that text as final output, one handoff
and two total turns in the metrics. An unresolvable handoff target is
instead fatal with the handoff-agent-not-found error. -/
theorem handoff_switch_and_terminal (cfg : RunnerCfg) (agent : Agent)
    (msgs : List Message) (c0 : Completion) (h : HandoffRequest)
    (hg0 : validateGuardrails agent msgs = none)
    (hp0 : cfg.provider 0 agent msgs = .ok c0)
    (hns0 : agent.hasOutputType = true → c0.structuredOutput = none)
    (hh0 : c0.handoff = some h)
    (htc0 : c0.toolCalls.length = 0) :
    (∀ b c1, 2 ≤ cfg.maxTurns →
      agent.getHandoff h.targetAgent = some b →
      validateGuardrails b (msgs ++ [c0.message]) = none →
      cfg.provider 1 b (msgs ++ [c0.message]) = .ok c1 →
      b.hasOutputType = false → c1.handoff = none → c1.toolCalls.length = 0 →
      executeLoop cfg agent msgs = .ok
        { finalOutput := .text c1.message.content
          messages := msgs ++ [c0.message] ++ [c1.message]
          agent := some b
          metrics := { totalTurns := 2
                       totalTokens := c0.usageTotalTokens + c1.usageTotalTokens
                       toolCalls := 0, handoffs := 1 } }) ∧
    (1 ≤ cfg.maxTurns → agent.getHandoff h.targetAgent = none →
      executeLoop cfg agent msgs = .error (.handoffNotFound h.targetAgent)) := by
  constructor
  · intro b c1 hmt hb hg1 hp1 hotb hh1 htc1
    obtain ⟨k, hk⟩ : ∃ k, cfg.maxTurns = k + 1 + 1 := ⟨cfg.maxTurns - 2, by omega⟩
    unfold executeLoop
    rw [hk]
    rw [execLoop_succ_next cfg (k + 1) 0 agent msgs ⟨0, 0, 0, 0⟩ b (msgs ++ [c0.message]) _
        (stepTurn_handoff cfg 0 agent msgs ⟨0, 0, 0, 0⟩ c0 h b hg0 hp0 hns0 hh0 hb)]
    rw [execLoop_succ_finished cfg k 1 b (msgs ++ [c0.message]) _ _
        (stepTurn_text_terminal cfg 1 b (msgs ++ [c0.message]) _ c1 hg1 hp1 hotb hh1 htc1)]
    simp
  · intro hmt hb
    obtain ⟨k, hk⟩ : ∃ k, cfg.maxTurns = k + 1 := ⟨cfg.maxTurns - 1, by omega⟩
    unfold executeLoop
    rw [hk]
    rw [execLoop_succ_fatalPost cfg k 0 agent msgs ⟨0, 0, 0, 0⟩ _
        (stepTurn_handoff_missing cfg 0 agent msgs ⟨0, 0, 0, 0⟩ c0 h hg0 hp0 hns0 hh0 hb)]

/-- Witness for C5: the triage agent hands off to the billing agent on
turn one, the billing agent answers terminally on turn two, and the run
ends with its text, one handoff and two turns. -/
theorem handoff_switch_and_terminal_witness :
    executeLoop handoffCfg triageAgent [userMessage "invoice?"] = .ok
      { finalOutput := .text "Your invoice is paid."
        messages := [userMessage "invoice?"] ++ [triageReply.message] ++ [billingReply.message]
        agent := some billingAgent
        metrics := { totalTurns := 2, totalTokens := 16, toolCalls := 0, handoffs := 1 } } :=
  (handoff_switch_and_terminal handoffCfg triageAgent [userMessage "invoice?"]
      triageReply handoffReq rfl rfl (fun hx => Bool.noConfusion hx) rfl rfl).1
    billingAgent billingReply (by decide) rfl rfl rfl rfl rfl rfl

/-- Counterexample to C6 as stated: in the concrete run whose first turn
requests three tool calls, one to the unknown name ghost, the tool-role
message recorded at the unknown call's slot has content "<nil>" — the
percent-v rendering of the nil response Content — and that content does
not reference tool not found, even though the ToolResponse itself carried
the tool-not-found error: the error payload is dropped when the response
is folded into history. -/
theorem tool_error_payload_dropped :
    (resultMessages (Run toolsCfg mathAgent "hi"))[3]? =
      some { role := "tool", content := "<nil>", toolCalls := []
             metadata := [("tool_call_id", "call-2")] } ∧
    (dispatchOne mathAgent callGhost).error = some "tool not found: ghost" ∧
    ¬ ("tool not found".toList <:+: "<nil>".toList) := by
  refine ⟨by decide, by decide, by decide⟩

/-- C6 amended: after a turn requesting N tool calls, exactly N tool-role
messages are appended to history in original call order, each carrying the
originating tool_call_id in its metadata; each message's content is the
percent-v rendering of the response Content alone — the response Error is
never consulted — so the unknown-name call's message carries the content
"<nil>" rather than an error payload, while the other messages carry the
formatted successful results. -/
theorem tool_turn_appends_messages (cfg : RunnerCfg) (fuel turn : Nat)
    (agent : Agent) (msgs : List Message) (metrics : RunMetrics) (c : Completion)
    (hg : validateGuardrails agent msgs = none)
    (hc : cfg.provider turn agent msgs = .ok c)
    (hns : agent.hasOutputType = true → c.structuredOutput = none)
    (hh : c.handoff = none)
    (htc : 0 < c.toolCalls.length) :
    (execLoop cfg (fuel + 1) turn agent msgs metrics =
      ((execLoop cfg fuel (turn + 1) agent
          (msgs ++ [c.message] ++ (c.toolCalls.map (dispatchOne agent)).map toolMessage)
          { metrics with totalTokens := metrics.totalTokens + c.usageTotalTokens
                         toolCalls := metrics.toolCalls + c.toolCalls.length }).1,
       (execLoop cfg fuel (turn + 1) agent
          (msgs ++ [c.message] ++ (c.toolCalls.map (dispatchOne agent)).map toolMessage)
          { metrics with totalTokens := metrics.totalTokens + c.usageTotalTokens
                         toolCalls := metrics.toolCalls + c.toolCalls.length }).2 + 1)) ∧
    ((c.toolCalls.map (dispatchOne agent)).map toolMessage).length = c.toolCalls.length ∧
    (∀ j (hj : j < c.toolCalls.length),
      ((c.toolCalls.map (dispatchOne agent)).map toolMessage)[j]? =
        some (toolMessage (dispatchOne agent c.toolCalls[j])) ∧
      (toolMessage (dispatchOne agent c.toolCalls[j])).role = "tool" ∧
      (toolMessage (dispatchOne agent c.toolCalls[j])).metadata =
        [("tool_call_id", c.toolCalls[j].id)] ∧
      (findTool agent (c.toolCalls[j].name) = none →
        (toolMessage (dispatchOne agent c.toolCalls[j])).content = "<nil>")) := by
  refine ⟨?_, by simp, ?_⟩
  · exact execLoop_succ_next cfg fuel turn agent msgs metrics agent _ _
      (stepTurn_tools cfg turn agent msgs metrics c hg hc hns hh htc)
  · intro j hj
    refine ⟨?_, rfl, ?_, ?_⟩
    · simp [List.getElem?_map, List.getElem?_eq_getElem hj]
    · have hid : (dispatchOne agent c.toolCalls[j]).toolCallID = c.toolCalls[j].id := by
        unfold dispatchOne
        cases findTool agent c.toolCalls[j].name <;> rfl
      simp [toolMessage, hid]
    · intro hnf
      simp [toolMessage, dispatchOne, hnf, formatValue]

/-- Witness for the amended C6: the concrete three-call turn appends three
tool messages; the instantiated statement is evaluated on the run above. -/
theorem tool_turn_appends_messages_witness :
    ((toolReply.toolCalls.map (dispatchOne mathAgent)).map toolMessage).length =
      toolReply.toolCalls.length ∧
    ((toolReply.toolCalls.map (dispatchOne mathAgent)).map toolMessage)[1]? =
      some (toolMessage (dispatchOne mathAgent callGhost)) ∧
    (toolMessage (dispatchOne mathAgent callGhost)).content = "<nil>" :=
  have h := tool_turn_appends_messages toolsCfg 8 0 mathAgent [userMessage "hi"]
    ⟨0, 0, 0, 0⟩ toolReply rfl rfl (fun hx => Bool.noConfusion hx) rfl (by decide)
  ⟨h.2.1, (h.2.2 1 (by decide)).1, (h.2.2 1 (by decide)).2.2.2 rfl⟩

/-- First failure wins over declaration order: guardrails before the
failing one pass, and the failing one's wrapped error is returned. -/
theorem firstGuardrailFailure_append (gs1 : List Guardrail) (g : Guardrail)
    (gs2 : List Guardrail) (content : String)
    (hpass : ∀ g1 ∈ gs1, g1.validate content = none)
    (e : String) (hfail : g.validate content = some e) :
    firstGuardrailFailure (gs1 ++ g :: gs2) content =
      some ("guardrail " ++ g.name ++ " failed: " ++ e) := by
  induction gs1 with
  | nil => simp [firstGuardrailFailure, hfail]
  | cons g1 rest ih =>
    have h1 : g1.validate content = none := hpass g1 (by simp)
    simp only [List.cons_append, firstGuardrailFailure, h1]
    exact ih (fun gx hx => hpass gx (by simp [hx]))

/-- Counterexample to C7 as stated: the concrete guarded run fails its
guardrail on turn one; the run returns only the wrapped error — no
RunResult, hence no RunMetrics at all, so no returned metrics object has
total_turns equal to zero; the provider is indeed never invoked. -/
theorem guardrail_no_metrics_returned :
    Run guardedCfg guardedAgent "bad" =
      .error (.guardrailFailed "guardrail NoBadWord failed: content contains bad") ∧
    resultMetrics (Run guardedCfg guardedAgent "bad") = none ∧
    ¬ (∃ m, resultMetrics (Run guardedCfg guardedAgent "bad") = some m ∧
        m.totalTurns = 0) ∧
    (execLoop guardedCfg 5 0 guardedAgent [userMessage "bad"] ⟨0, 0, 0, 0⟩).2 = 0 := by
  refine ⟨rfl, rfl, ?_, rfl⟩
  rintro ⟨m, hm, _⟩
  rw [show resultMetrics (Run guardedCfg guardedAgent "bad") = none from rfl] at hm
  cases hm

/-- C7 amended: when a guardrail of the current agent fails at the start
of a turn, the loop aborts at once with the wrapped guardrail-violation
error and the completion provider is not invoked on that turn; the
guardrails validate only the content of the last message, in declaration
order, first failure wins; no RunResult — and hence no RunMetrics — is
returned for the failed run. -/
theorem guardrail_abort_before_completion (cfg : RunnerCfg) (fuel turn : Nat)
    (agent : Agent) (msgs : List Message) (metrics : RunMetrics) (e : String)
    (hg : validateGuardrails agent msgs = some e) :
    execLoop cfg (fuel + 1) turn agent msgs metrics = (.error (.guardrailFailed e), 0) ∧
    resultMetrics (execLoop cfg (fuel + 1) turn agent msgs metrics).1 = none ∧
    (∀ (gs1 : List Guardrail) (g : Guardrail) (gs2 : List Guardrail)
       (last : Message) (e' : String),
      msgs.getLast? = some last →
      agent.guardrails = gs1 ++ g :: gs2 →
      (∀ g1 ∈ gs1, g1.validate last.content = none) →
      g.validate last.content = some e' →
      validateGuardrails agent msgs =
        some ("guardrail " ++ g.name ++ " failed: " ++ e')) := by
  have hmain := execLoop_succ_fatalPre cfg fuel turn agent msgs metrics _
    (stepTurn_guardrail cfg turn agent msgs metrics e hg)
  refine ⟨hmain, by rw [hmain]; rfl, ?_⟩
  intro gs1 g gs2 last e' hlast hgs hpass hfail
  unfold validateGuardrails
  have hne : ¬ msgs.length = 0 := by
    intro h0
    rw [List.length_eq_zero] at h0
    subst h0
    cases hlast
  have hgne : ¬ agent.guardrails.length = 0 := by
    rw [hgs]
    simp
  rw [if_neg (by push_neg; exact ⟨hne, hgne⟩), hlast, hgs]
  exact firstGuardrailFailure_append gs1 g gs2 last.content hpass e' hfail

/-- Witness for the amended C7: the concrete guarded run aborts with the
wrapped error, zero provider invocations, and no metrics. -/
theorem guardrail_abort_witness :
    execLoop guardedCfg 5 0 guardedAgent [userMessage "bad"] ⟨0, 0, 0, 0⟩ =
      (.error (.guardrailFailed "guardrail NoBadWord failed: content contains bad"), 0) ∧
    resultMetrics
      (execLoop guardedCfg 5 0 guardedAgent [userMessage "bad"] ⟨0, 0, 0, 0⟩).1 = none :=
  have h := guardrail_abort_before_completion guardedCfg 4 0 guardedAgent
    [userMessage "bad"] ⟨0, 0, 0, 0⟩ "guardrail NoBadWord failed: content contains bad" rfl
  ⟨h.1, h.2.1⟩

/-- Validate reports an error whenever the handoff graph is cyclic. -/
theorem validate_isSome_of_cycle (a : Agent) (hcyc : hasHandoffCycle a = true) :
    (Agent.Validate a).isSome := by
  unfold Agent.Validate
  by_cases hn : a.name = ""
  · simp [hn]
  · by_cases hm : a.model = ""
    · simp [hn, hm]
    · simp only [if_neg hn, if_neg hm]
      cases hts : validateTools a.tools with
      | some e => rfl
      | none =>
        simp only [validateHandoffs_isSome]
        exact hcyc

/-- Counterexample to C8 as stated: NewAgent builds the cyclic agent with
no error — it has no error return at all — the cycle is reported only by
the explicit Validate call, and the runner then executes the cyclic agent
to a successful RunResult: the configuration error was caught neither at
construction nor at run time. -/
theorem cyclic_agent_constructed_and_runs :
    hasHandoffCycle cyclicAgent = true ∧
    Agent.Validate cyclicAgent = some "circular handoff detected: A" ∧
    Run cyclicCfg cyclicAgent "hello" = .ok
      { finalOutput := .text "Hello from NoOpProvider"
        messages := [userMessage "hello"] ++ [noopCompletion.message]
        agent := some cyclicAgent
        metrics := { totalTurns := 1, totalTokens := 15
                     toolCalls := 0, handoffs := 0 } } := by
  refine ⟨by decide, by decide, rfl⟩

/-- C8 amended: configuration errors are reported only by the explicit
Agent.Validate call: NewAgent performs no validation and always returns an
agent, and the runner never consults Validate, so an agent whose handoff
graph is cyclic — for which Validate does report an error — still runs to
a normal completion. -/
theorem validation_not_at_construction (cfg : RunnerCfg) (a : Agent)
    (input : String) (c : Completion)
    (hcyc : hasHandoffCycle a = true)
    (hsess : cfg.session = none)
    (hmt : 1 ≤ cfg.maxTurns)
    (hg : validateGuardrails a [userMessage input] = none)
    (hp : cfg.provider 0 a [userMessage input] = .ok c)
    (hot : a.hasOutputType = false)
    (hh : c.handoff = none)
    (htc : c.toolCalls.length = 0) :
    (Agent.Validate a).isSome ∧
    Run cfg a input = .ok
      { finalOutput := .text c.message.content
        messages := [userMessage input] ++ [c.message]
        agent := some a
        metrics := { totalTurns := 1, totalTokens := c.usageTotalTokens
                     toolCalls := 0, handoffs := 0 } } := by
  refine ⟨validate_isSome_of_cycle a hcyc, ?_⟩
  unfold Run
  simp only [hsess]
  rw [show ({ role := "user", content := input, toolCalls := [], metadata := [] } : Message) =
      userMessage input from rfl]
  obtain ⟨k, hk⟩ : ∃ k, cfg.maxTurns = k + 1 := ⟨cfg.maxTurns - 1, by omega⟩
  unfold executeLoop
  rw [hk]
  rw [execLoop_succ_finished cfg k 0 a _ _ _
      (stepTurn_text_terminal cfg 0 a _ ⟨0, 0, 0, 0⟩ c hg hp hot hh htc)]
  simp [userMessage]

/-- Witness for the amended C8: the concrete cyclic agent fails Validate
yet its run returns a normal result. -/
theorem validation_not_at_construction_witness :
    (Agent.Validate cyclicAgent).isSome ∧
    Run cyclicCfg cyclicAgent "hello" = .ok
      { finalOutput := .text "Hello from NoOpProvider"
        messages := [userMessage "hello"] ++ [noopCompletion.message]
        agent := some cyclicAgent
        metrics := { totalTurns := 1, totalTokens := 15
                     toolCalls := 0, handoffs := 0 } } :=
  validation_not_at_construction cyclicCfg cyclicAgent "hello" noopCompletion
    (by decide) rfl (by decide) rfl rfl rfl rfl rfl

/-- C9: the asynchronous entry point delivers on its completion channel
exactly the RunResult the synchronous Run returns; when Run fails, the
error is not propagated to the async consumer but wrapped into a degraded
RunResult whose final output is the formatted error text. -/
theorem async_delivers_run_result (cfg : RunnerCfg) (agent : Agent) (input : String) :
    (∀ r, Run cfg agent input = .ok r → RunAsyncDelivered cfg agent input = r) ∧
    (∀ e, Run cfg agent input = .error e →
      RunAsyncDelivered cfg agent input =
        { finalOutput := .text ("Error: " ++ e.message), messages := []
          agent := none, metrics := ⟨0, 0, 0, 0⟩ }) := by
  constructor <;> intro x hx <;> unfold RunAsyncDelivered <;> rw [hx]

/-- Witness for C9: the failing guarded run is delivered to the async
consumer as a degraded RunResult carrying the formatted error text. -/
theorem async_delivers_run_result_witness :
    RunAsyncDelivered guardedCfg guardedAgent "bad" =
      { finalOutput :=
          .text "Error: guardrail validation failed: guardrail NoBadWord failed: content contains bad"
        messages := [], agent := none, metrics := ⟨0, 0, 0, 0⟩ } :=
  (async_delivers_run_result guardedCfg guardedAgent "bad").2
    (.guardrailFailed "guardrail NoBadWord failed: content contains bad") rfl
